import Mathlib

/-! dnsquery: a UDP-to-DoH forwarder.

A shallow embedding of `main.go`: the buffer pool (`pool`, `getBuffer`, `putBuffer`),
the receive loop, the forwarder goroutine, the TLS configuration and the client timeout.
The operating system, the network and the Go standard library are the environment: their
answers are inputs of the definitions below.
-/

namespace DnsQuery

/-- One octet. -/
abbrev Byte := Fin 256

/-! ## `encoding/base64`, `RawURLEncoding` -/

/-- The alphabet of `base64.URLEncoding` (`encodeURL` in `encoding/base64`). -/
def encodeURL : String := "ABCDEFGHIJKLMNOPQRSTUVWXYZabcdefghijklmnopqrstuvwxyz0123456789-_"

/-- The lookup `enc.encode[i]`. -/
def encodeTable (i : Nat) : Char := encodeURL.data.getD i 'A'

/-- The encoder `Encoding.Encode` for an encoding without padding: three source bytes give four
characters; a remainder of two bytes gives three characters and a remainder of one byte two. -/
def encodeList : List Byte → List Char
  | a :: b :: c :: rest =>
    let val := a.val <<< 16 ||| b.val <<< 8 ||| c.val
    encodeTable (val >>> 18 &&& 0x3F) :: encodeTable (val >>> 12 &&& 0x3F) ::
      encodeTable (val >>> 6 &&& 0x3F) :: encodeTable (val &&& 0x3F) :: encodeList rest
  | [a, b] =>
    let val := a.val <<< 16 ||| b.val <<< 8
    [encodeTable (val >>> 18 &&& 0x3F), encodeTable (val >>> 12 &&& 0x3F),
      encodeTable (val >>> 6 &&& 0x3F)]
  | [a] =>
    let val := a.val <<< 16
    [encodeTable (val >>> 18 &&& 0x3F), encodeTable (val >>> 12 &&& 0x3F)]
  | [] => []

/-- The call `base64.RawURLEncoding.EncodeToString(src)`. -/
def EncodeToString (src : List Byte) : String := String.mk (encodeList src)

/-- The inverse lookup of the alphabet (`decodeMap`): the six-bit value of a character. -/
def decodeMap (c : Char) : Option Nat :=
  let i := encodeURL.data.indexOf c
  if i < 64 then some i else none

/-- The conversion `byte(v)`: the low eight bits. -/
def toByte (v : Nat) : Byte := ⟨v % 256, Nat.mod_lt _ (by decide)⟩

/-- Raw base64url decoding (RFC 4648 section 5, no padding), the inverse transformation a DoH
endpoint applies to the `dns` parameter: four characters give three bytes, a tail of three
characters two bytes, a tail of two characters one byte; a tail of one character or a character
outside the alphabet is an error. -/
def decodeList : List Char → Option (List Byte)
  | c0 :: c1 :: c2 :: c3 :: rest =>
    match decodeMap c0, decodeMap c1, decodeMap c2, decodeMap c3, decodeList rest with
    | some s0, some s1, some s2, some s3, some tail =>
      let val := s0 <<< 18 ||| s1 <<< 12 ||| s2 <<< 6 ||| s3
      some (toByte (val >>> 16) :: toByte (val >>> 8) :: toByte val :: tail)
    | _, _, _, _, _ => none
  | [c0, c1, c2] =>
    match decodeMap c0, decodeMap c1, decodeMap c2 with
    | some s0, some s1, some s2 =>
      let val := s0 <<< 18 ||| s1 <<< 12 ||| s2 <<< 6
      some [toByte (val >>> 16), toByte (val >>> 8)]
    | _, _, _ => none
  | [c0, c1] =>
    match decodeMap c0, decodeMap c1 with
    | some s0, some s1 =>
      let val := s0 <<< 18 ||| s1 <<< 12
      some [toByte (val >>> 16)]
    | _, _ => none
  | [_] => none
  | [] => some []

/-- The characters the decoder of `encoding/base64` skips wherever they stand: `\r` and `\n`. -/
def isNewline (c : Char) : Bool := c == '\r' || c == '\n'

/-- The call `base64.RawURLEncoding.DecodeString(s)`: carriage returns and line feeds are
skipped, what is left is decoded. -/
def DecodeString (s : String) : Option (List Byte) :=
  decodeList (s.data.filter (fun c => !isNewline c))

/-- The characters of the URL-safe alphabet: `A-Z`, `a-z`, `0-9`, `-` and `_`. -/
def isURLSafe (c : Char) : Bool :=
  (decide ('A' ≤ c) && decide (c ≤ 'Z')) || (decide ('a' ≤ c) && decide (c ≤ 'z')) ||
    (decide ('0' ≤ c) && decide (c ≤ '9')) || c == '-' || c == '_'

/-! ## Buffers and the pool (`main.go` lines 22-40) -/

/-- A non-nil `[]byte`: `id` names its backing array, `bytes` is its current content
(`len` and `cap` are `bytes.length`). -/
structure Buffer where
  id : Nat
  bytes : List Byte
  deriving DecidableEq, Repr

/-- A Go value of type `[]byte`; `none` is the nil slice. -/
abbrev Slice := Option Buffer

/-- The state of the global `pool` (a `sync.Pool`): the values it currently holds, and how many
arrays its `New` function has allocated. Every value it holds is a `[]byte`, because `putBuffer`
is the only caller of `Put` and `New` returns a `[]byte`. -/
structure PoolState where
  items : List Slice
  allocated : Nat
  deriving DecidableEq, Repr

/-- The initial value of the variable `pool`. -/
def pool : PoolState := ⟨[], 0⟩

/-- The field `New` of `pool`: `make([]byte, 1024)`. -/
def poolNew (p : PoolState) : Slice × PoolState :=
  (some ⟨p.allocated, List.replicate 1024 0⟩, { p with allocated := p.allocated + 1 })

/-- The call `pool.Get()`: it removes and returns an arbitrary item (`pick = some i`, the item at
index `i`), or treats the pool as empty and calls `New` (`pick = none`, or no such item). -/
def poolGet (p : PoolState) (pick : Option Nat) : Slice × PoolState :=
  match pick with
  | some i =>
    match p.items.get? i with
    | some v => (v, { p with items := p.items.eraseIdx i })
    | none => poolNew p
  | none => poolNew p

/-- The function `getBuffer`. The type assertion `.([]byte)` succeeds on every value of the pool,
so the final `return nil` is reached by no value; a nil slice held by the pool is returned as
such. -/
def getBuffer (p : PoolState) (pick : Option Nat) : Slice × PoolState := poolGet p pick

/-- The function `putBuffer`: `pool.Put(buffer)`. -/
def putBuffer (p : PoolState) (buffer : Slice) : PoolState :=
  { p with items := buffer :: p.items }

/-! ## The environment: the socket and the upstream -/

/-- A `net.UDPAddr`. -/
structure UDPAddr where
  IP : List Nat
  Port : Nat
  deriving DecidableEq, Repr

/-- What the socket delivers to one `conn.ReadFromUDP`: a datagram with its source address, or an
error (the socket was closed). -/
inductive SockEvent where
  | datagram (payload : List Byte) (remote : UDPAddr)
  | failure (err : String)
  deriving DecidableEq, Repr

/-- The results `n, remote, err` of `conn.ReadFromUDP(buffer)`, and the buffer after the call. -/
structure UDPRead where
  n : Nat
  remote : Option UDPAddr
  err : Option String
  buffer : Buffer
  deriving DecidableEq, Repr

/-- The call `conn.ReadFromUDP(buffer)`: a datagram is copied to the front of the buffer, cut to
the length of the buffer; an error reads nothing. -/
def ReadFromUDP (ev : SockEvent) (buffer : Buffer) : UDPRead :=
  match ev with
  | .datagram payload remote =>
    let n := min payload.length buffer.bytes.length
    ⟨n, some remote, none, { buffer with bytes := payload.take n ++ buffer.bytes.drop n }⟩
  | .failure err => ⟨0, none, some err, buffer⟩

/-- The body of an HTTP response as the forwarder meets it: `content` is the whole body, `chunk`
the number of its bytes the first `Read` has at hand, `err` the error that `Read` returns (nil,
`io.EOF` or a transport error). -/
structure Body where
  content : List Byte
  chunk : Nat
  err : Option String
  deriving DecidableEq, Repr

/-- The results `n, err` of `resp.Body.Read(data)`, and the buffer after the call. -/
structure BodyRead where
  n : Nat
  err : Option String
  data : Buffer
  deriving DecidableEq, Repr

/-- The first call `resp.Body.Read(data)` (the `io.Reader` contract: `0 <= n <= len(data)`): the
bytes at hand are copied to the front of the buffer, cut to its length. -/
def Body.Read (body : Body) (data : Buffer) : BodyRead :=
  let n := min (min body.chunk body.content.length) data.bytes.length
  ⟨n, body.err, { data with bytes := body.content.take n ++ data.bytes.drop n }⟩

/-- An `http.Response`. -/
structure Response where
  StatusCode : Int
  Body : Body
  deriving DecidableEq, Repr

/-- The upstream as seen through `client.Get(url)`: a response or a transport error. -/
abbrev Client := String → Except String Response

/-- What the program does to the outside, in order. -/
inductive Effect where
  | spawn (d : Option UDPAddr) (data : Buffer) (length : Nat)
  | putBuffer (id : Nat)
  | get (url : String)
  | bodyRead
  | bodyClose
  | writeToUDP (b : List Byte) (addr : Option UDPAddr)
  | warn (msg : String)
  | panic
  deriving DecidableEq, Repr

/-! ## The forwarder goroutine (`main.go` lines 151-179) -/

/-- The slice expression `data[:n]`: `none` is the run-time panic for `n > cap(data)`. -/
def sliceTo (data : Buffer) (n : Nat) : Option (List Byte) :=
  if n ≤ data.bytes.length then some (data.bytes.take n) else none

/-- The URL `fmt.Sprintf("%s?dns=%s", dohAddr, base64.RawURLEncoding.EncodeToString(q))`. -/
def requestURL (dohAddr : String) (q : List Byte) : String :=
  dohAddr ++ "?dns=" ++ EncodeToString q

/-- The arguments `(d, data, length)` of one forwarder goroutine. -/
structure Task where
  d : Option UDPAddr
  data : Buffer
  length : Nat
  deriving DecidableEq, Repr

/-- The statements of the goroutine between its two `defer`s and its end: the effects, and the
buffer as the goroutine leaves it. -/
def forwarderBody (client : Client) (dohAddr : String) (t : Task) : List Effect × Buffer :=
  match sliceTo t.data t.length with
  | none => ([.panic], t.data)
  | some q =>
    let url := requestURL dohAddr q
    match client url with
    | .ok resp =>
      if resp.StatusCode = 200 then
        -- defer resp.Body.Close()
        let r := resp.Body.Read t.data
        if 0 < r.n then
          match sliceTo r.data r.n with
          | some out => ([.get url, .bodyRead, .writeToUDP out t.d, .bodyClose], r.data)
          | none => ([.get url, .bodyRead, .panic, .bodyClose], r.data)
        else if r.err ≠ none then
          ([.get url, .bodyRead, .warn (r.err.getD ""), .bodyClose], r.data)
        else
          ([.get url, .bodyRead, .bodyClose], r.data)
      else
        ([.get url, .warn ("http response code: " ++ toString resp.StatusCode)], t.data)
    | .error err => ([.get url, .warn err], t.data)

/-- The goroutine `go func(d *net.UDPAddr, data []byte, length int)`, run on the pool `p`: the
body, then the deferred `putBuffer(data)`, which runs on every way out. -/
def forwarder (client : Client) (dohAddr : String) (t : Task) (p : PoolState) :
    PoolState × List Effect :=
  let r := forwarderBody client dohAddr t
  (putBuffer p (some r.2), r.1 ++ [.putBuffer t.data.id])

/-! ## The receive loop (`main.go` lines 147-190) -/

/-- The outcome of one iteration of the receive loop: the pool after it, its effects, the
goroutine it started, and whether the loop goes on (`false` is the `break`). -/
structure Iteration where
  pool : PoolState
  trace : List Effect
  spawned : Option Task
  again : Bool
  deriving DecidableEq, Repr

/-- One iteration of `for { ... }`. -/
def loopBody (p : PoolState) (pick : Option Nat) (ev : SockEvent) : Iteration :=
  match getBuffer p pick with
  | (none, p1) => ⟨p1, [], none, true⟩
  | (some buffer, p1) =>
    let r := ReadFromUDP ev buffer
    match r.err with
    | none =>
      if 0 < r.n then
        ⟨putBuffer p1 (some r.buffer), [.spawn r.remote r.buffer r.n, .putBuffer r.buffer.id],
          some ⟨r.remote, r.buffer, r.n⟩, true⟩
      else
        ⟨putBuffer p1 (some r.buffer), [.warn "short read", .putBuffer r.buffer.id], none, true⟩
    | some err => ⟨p1, [.warn err], none, false⟩

/-! ## The program as a transition system -/

/-- The slice `b` as it reads once the array of `w` holds the bytes of `w`. Every slice of the
program spans its whole array (`make([]byte, 1024)`, never resliced for keeping), so a slice of
the same array reads as `w` does; a slice of another array is untouched. -/
def Buffer.overwrite (b w : Buffer) : Buffer :=
  if b.id = w.id then ⟨b.id, w.bytes⟩ else b

/-- The arguments of a goroutine once the array of `w` holds the bytes of `w`. -/
def Task.overwrite (t : Task) (w : Buffer) : Task :=
  { t with data := t.data.overwrite w }

/-- The values of the pool once the array of `w` holds the bytes of `w`. -/
def PoolState.overwrite (p : PoolState) (w : Buffer) : PoolState :=
  { p with items := p.items.map (Option.map fun b => b.overwrite w) }

/-- The pool, the goroutines that were started and have not ended, and the effects so far.
Arrays are shared: the slices with the same `id`, in the pool and in the goroutines, are
slices of one array and carry the same bytes. -/
structure State where
  pool : PoolState
  tasks : List Task
  trace : List Effect

/-- What happens next: the loop runs one iteration, a started goroutine runs (from its first
statement to its end) against the upstream `client`, or the pool drops one of its items (a
`sync.Pool` may do so at any time). -/
inductive Step where
  | recv (pick : Option Nat) (ev : SockEvent)
  | finish (i : Nat) (client : Client)
  | evict (i : Nat)

/-- One transition. What `ReadFromUDP` and `Body.Read` write into an array is seen by every
holder of a slice of that array: after line 188 released the array of a running goroutine, the
next iteration can acquire it and read the next datagram into it. -/
def step (dohAddr : String) (s : State) : Step → State
  | .recv pick ev =>
    let r := loopBody s.pool pick ev
    match (getBuffer s.pool pick).1 with
    | some buffer =>
      let w := (ReadFromUDP ev buffer).buffer
      ⟨r.pool.overwrite w, (s.tasks ++ r.spawned.toList).map (fun t => t.overwrite w),
        s.trace ++ r.trace⟩
    | none => ⟨r.pool, s.tasks ++ r.spawned.toList, s.trace ++ r.trace⟩
  | .finish i client =>
    match s.tasks.get? i with
    | some t =>
      let w := (forwarderBody client dohAddr t).2
      ⟨(forwarder client dohAddr t s.pool).1.overwrite w,
        (s.tasks.eraseIdx i).map (fun t => t.overwrite w),
        s.trace ++ (forwarder client dohAddr t s.pool).2⟩
    | none => s
  | .evict i => ⟨{ s.pool with items := s.pool.items.eraseIdx i }, s.tasks, s.trace⟩

/-- The state after a sequence of transitions from the start: the pool empty, nothing running,
nothing done. -/
def run (dohAddr : String) (steps : List Step) : State :=
  steps.foldl (step dohAddr) ⟨pool, [], []⟩

/-! ## Observations on a trace -/

/-- The datagrams written by `conn.WriteToUDP`, in order. -/
def writes : List Effect → List (List Byte × Option UDPAddr)
  | [] => []
  | .writeToUDP b addr :: rest => (b, addr) :: writes rest
  | _ :: rest => writes rest

/-- The number of `putBuffer` calls on the array `id`. -/
def putCount (id : Nat) (trace : List Effect) : Nat := trace.count (.putBuffer id)

/-- The number of `resp.Body.Close` calls. -/
def closeCount (trace : List Effect) : Nat := trace.count .bodyClose

/-- The number of `resp.Body.Read` calls. -/
def readCount (trace : List Effect) : Nat := trace.count .bodyRead

/-- The `dns` parameter of a request URL built on `dohAddr`: what follows `<dohAddr>?dns=`. -/
def dnsParam (dohAddr url : String) : String :=
  String.mk (url.data.drop (dohAddr.length + 5))

/-! ## The TLS configuration (`main.go` lines 93-112) -/

/-- The result of `os.Stat`, as far as the program reads it. -/
structure FileInfo where
  Size : Int

/-- The file system: `os.Stat` and `ioutil.ReadFile`. -/
structure FileSystem where
  Stat : String → Except String FileInfo
  ReadFile : String → Except String (List Byte)

/-- The package `crypto/x509` over an arbitrary type of certificate pools: `NewCertPool`, and
`AppendCertsFromPEM`, which gives the pool with the parsed certificates added and whether at
least one certificate was parsed. -/
structure X509 (CertPool : Type) where
  NewCertPool : CertPool
  AppendCertsFromPEM : CertPool → List Byte → CertPool × Bool

/-- The fields of `tls.Config` the program sets; `RootCAs = none` is the unset field, for which
the system roots are used. -/
structure TLSConfig (CertPool : Type) where
  InsecureSkipVerify : Bool
  RootCAs : Option CertPool

/-- The construction of `tlsConfig`. -/
def tlsConfig {CertPool : Type} (fs : FileSystem) (x509 : X509 CertPool) (noVerify : Bool)
    (rootCA : String) : TLSConfig CertPool :=
  let tlsConfig : TLSConfig CertPool := ⟨noVerify, none⟩
  if rootCA ≠ "" then
    match fs.Stat rootCA with
    | .ok info =>
      if 0 < info.Size then
        match fs.ReadFile rootCA with
        | .ok data =>
          let r := x509.AppendCertsFromPEM x509.NewCertPool data
          if r.2 then ⟨false, some r.1⟩ else tlsConfig
        | .error _ => tlsConfig
      else tlsConfig
    | .error _ => tlsConfig
  else tlsConfig

/-! ## The client timeout (`main.go` lines 74-76 and 129) -/

/-- The constant `time.Second`, in nanoseconds. -/
def Second : Int := 1000000000

/-- The value of an integer in signed 64-bit arithmetic (two's complement wrap-around). -/
def wrapInt64 (x : Int) : Int := (x + 2 ^ 63) % 2 ^ 64 - 2 ^ 63

/-- The statement `if 1 > timeout { timeout = 3 }`. -/
def coerceTimeout (timeout : Int) : Int := if 1 > timeout then 3 else timeout

/-- The field `Timeout: time.Duration(timeout) * time.Second` of the client, for the flag value
`timeout` (an `int` of 64 bits): a `time.Duration`, an `int64` count of nanoseconds. -/
def clientTimeout (timeout : Int) : Int := wrapInt64 (coerceTimeout timeout * Second)

/-! ## Invariant and example inputs -/

/-- A value of the pool that is a non-nil slice of 1024 bytes. -/
def Full (v : Slice) : Prop := ∃ b, v = some b ∧ b.bytes.length = 1024

/-- The invariant of the program: every value of the pool and every buffer held by a running
goroutine is a non-nil slice of 1024 bytes. -/
def Inv (s : State) : Prop :=
  (∀ v ∈ s.pool.items, Full v) ∧ ∀ t ∈ s.tasks, t.data.bytes.length = 1024

/-- A query of 12 bytes: a DNS header alone. -/
def exampleQuery : List Byte := [0x12, 0x34, 1, 0, 0, 1, 0, 0, 0, 0, 0, 0]

/-- The source address of the example query. -/
def exampleAddr : UDPAddr := ⟨[192, 0, 2, 7], 40000⟩

/-- The default of the flag `-s`. -/
def exampleDoh : String := "https://dns.google/dns-query"

/-- A first query of 8 bytes, sent from `exampleAddr`. -/
def queryA : List Byte := List.replicate 8 0xaa

/-- A second query of 20 bytes, sent from `addrB`. -/
def queryB : List Byte := List.replicate 20 0xbb

/-- The source address of the second query. -/
def addrB : UDPAddr := ⟨[192, 0, 2, 8], 40001⟩

/-- A DoH endpoint that echoes: it answers a request with status 200 and the decoding of the
`dns` parameter as body, delivered whole by the first `Read`; a parameter that does not decode
is a transport error. -/
def echoUpstream (dohAddr : String) : Client := fun url =>
  match DecodeString (dnsParam dohAddr url) with
  | some q => .ok ⟨200, ⟨q, q.length, none⟩⟩
  | none => .error "bad request"

/-- The second datagram arrives before the goroutine of the first one runs: the loop reads
`queryA`, starts its goroutine and releases the buffer (line 188); the next iteration gets that
buffer back from the pool and reads `queryB` into it; then the first goroutine runs against the
echoing endpoint. -/
def overtaken : List Step :=
  [.recv none (.datagram queryA exampleAddr), .recv (some 0) (.datagram queryB addrB),
    .finish 0 (echoUpstream exampleDoh)]

/-- The same two datagrams when the second iteration gets a fresh buffer from the pool. -/
def undisturbed : List Step :=
  [.recv none (.datagram queryA exampleAddr), .recv none (.datagram queryB addrB),
    .finish 0 (echoUpstream exampleDoh)]

/-- An upstream that answers every request with the response `resp`. -/
def answering (resp : Response) : Client := fun _ => .ok resp

/-- A file system with one readable file of `size` bytes of content `data`, whatever the path. -/
def exampleFS (size : Int) (data : List Byte) : FileSystem :=
  ⟨fun _ => .ok ⟨size⟩, fun _ => .ok data⟩

/-- A certificate parser over pools that are lists of blobs: it adds the whole input as one
certificate when the input is not empty, and parses nothing from an empty input. -/
def exampleX509 : X509 (List (List Byte)) :=
  ⟨[], fun certs data => (if data.isEmpty then certs else certs ++ [data], !data.isEmpty)⟩

/-! ## Lemmas on the encoding -/

theorem decodeMap_encodeTable (i : Nat) (h : i < 64) : decodeMap (encodeTable i) = some i := by
  interval_cases i <;> decide


theorem or_eq_add (i a b : Nat) (h : b < 2 ^ i) : a <<< i ||| b = a * 2 ^ i + b := by
  rw [Nat.shiftLeft_eq, Nat.mul_comm]
  exact (Nat.mul_add_lt_is_or h a).symm

theorem pack3 (a b c : Nat) (hb : b < 256) (hc : c < 256) :
    a <<< 16 ||| b <<< 8 ||| c = a * 65536 + b * 256 + c := by
  have h1 : a <<< 16 ||| b <<< 8 = a * 65536 + b * 256 := by
    rw [Nat.shiftLeft_eq b 8, or_eq_add 16 a (b * 2 ^ 8) (by omega)]; omega
  have h2 : a * 65536 + b * 256 = (a * 256 + b) <<< 8 := by
    rw [Nat.shiftLeft_eq]; omega
  rw [h1, h2, or_eq_add 8 _ c (by omega), Nat.shiftLeft_eq]

theorem pack4 (s0 s1 s2 s3 : Nat) (h1 : s1 < 64) (h2 : s2 < 64) (h3 : s3 < 64) :
    s0 <<< 18 ||| s1 <<< 12 ||| s2 <<< 6 ||| s3 = s0 * 262144 + s1 * 4096 + s2 * 64 + s3 := by
  have e1 : s0 <<< 18 ||| s1 <<< 12 = (s0 * 64 + s1) <<< 12 := by
    rw [Nat.shiftLeft_eq s1 12, or_eq_add 18 s0 (s1 * 2 ^ 12) (by omega), Nat.shiftLeft_eq]; omega
  have e3 : (s0 * 64 + s1) <<< 12 ||| s2 <<< 6 = ((s0 * 64 + s1) * 64 + s2) <<< 6 := by
    rw [Nat.shiftLeft_eq s2 6, or_eq_add 12 _ (s2 * 2 ^ 6) (by omega), Nat.shiftLeft_eq]; omega
  rw [e1, e3, or_eq_add 6 _ s3 (by omega)]; omega

theorem low6_eq (v : Nat) : v &&& 0x3F = v % 64 :=
  Nat.and_pow_two_sub_one_eq_mod v 6

theorem decodeMap_encodeTable_mod (v : Nat) :
    decodeMap (encodeTable (v % 64)) = some (v % 64) :=
  decodeMap_encodeTable _ (Nat.mod_lt _ (by decide))

theorem unpack (v : Nat) :
    (v >>> 18 % 64) * 262144 + (v >>> 12 % 64) * 4096 + (v >>> 6 % 64) * 64 + v % 64
      = v % 16777216 := by
  simp only [Nat.shiftRight_eq_div_pow]
  norm_num
  omega

theorem block3 (a b c : Byte) (rest : List Byte) (tail : List Byte)
    (ih : decodeList (encodeList rest) = some tail) :
    decodeList (encodeList (a :: b :: c :: rest)) = some (a :: b :: c :: tail) := by
  obtain ⟨a, ha⟩ := a
  obtain ⟨b, hb⟩ := b
  obtain ⟨c, hc⟩ := c
  simp only [encodeList, decodeList, low6_eq, pack3 a b c hb hc,
    decodeMap_encodeTable_mod, ih]
  generalize hv : a * 65536 + b * 256 + c = v
  rw [pack4 _ _ _ _ (Nat.mod_lt _ (by omega)) (Nat.mod_lt _ (by omega)) (Nat.mod_lt _ (by omega)),
    unpack v]
  simp only [Nat.shiftRight_eq_div_pow, toByte, Option.some.injEq, List.cons.injEq, Fin.mk.injEq,
    and_true]
  norm_num
  refine ⟨?_, ?_, ?_⟩ <;> omega

theorem pack2 (a b : Nat) (hb : b < 256) : a <<< 16 ||| b <<< 8 = a * 65536 + b * 256 := by
  rw [Nat.shiftLeft_eq b 8, or_eq_add 16 a (b * 2 ^ 8) (by omega)]; omega

theorem pack4_3 (s0 s1 s2 : Nat) (h1 : s1 < 64) (h2 : s2 < 64) :
    s0 <<< 18 ||| s1 <<< 12 ||| s2 <<< 6 = s0 * 262144 + s1 * 4096 + s2 * 64 := by
  have e1 : s0 <<< 18 ||| s1 <<< 12 = (s0 * 64 + s1) <<< 12 := by
    rw [Nat.shiftLeft_eq s1 12, or_eq_add 18 s0 (s1 * 2 ^ 12) (by omega), Nat.shiftLeft_eq]; omega
  rw [e1, Nat.shiftLeft_eq s2 6, or_eq_add 12 _ (s2 * 2 ^ 6) (by omega)]; omega

theorem pack4_2 (s0 s1 : Nat) (h1 : s1 < 64) :
    s0 <<< 18 ||| s1 <<< 12 = s0 * 262144 + s1 * 4096 := by
  rw [Nat.shiftLeft_eq s1 12, or_eq_add 18 s0 (s1 * 2 ^ 12) (by omega)]; omega

theorem block2 (a b : Byte) : decodeList (encodeList [a, b]) = some [a, b] := by
  obtain ⟨a, ha⟩ := a
  obtain ⟨b, hb⟩ := b
  simp only [encodeList, decodeList, low6_eq, pack2 a b hb, decodeMap_encodeTable_mod]
  generalize hv : a * 65536 + b * 256 = v
  rw [pack4_3 _ _ _ (Nat.mod_lt _ (by omega)) (Nat.mod_lt _ (by omega))]
  simp only [Nat.shiftRight_eq_div_pow, toByte, Option.some.injEq, List.cons.injEq, Fin.mk.injEq,
    and_true]
  norm_num
  refine ⟨?_, ?_⟩ <;> omega

theorem block1 (a : Byte) : decodeList (encodeList [a]) = some [a] := by
  obtain ⟨a, ha⟩ := a
  simp only [encodeList, decodeList, low6_eq, decodeMap_encodeTable_mod]
  generalize hv : a <<< 16 = v
  rw [Nat.shiftLeft_eq] at hv
  rw [pack4_2 _ _ (Nat.mod_lt _ (by omega))]
  simp only [Nat.shiftRight_eq_div_pow, toByte, Option.some.injEq, List.cons.injEq, Fin.mk.injEq,
    and_true]
  norm_num
  omega

theorem decodeList_encodeList (src : List Byte) : decodeList (encodeList src) = some src := by
  induction src using encodeList.induct with
  | case1 a b c rest ih => exact block3 a b c rest rest ih
  | case2 a b => exact block2 a b
  | case3 a => exact block1 a
  | case4 => rfl

theorem encodeTable_safe (i : Nat) : encodeTable i ∈ encodeURL.data := by
  by_cases h : i < 64
  · interval_cases i <;> decide
  · have : encodeURL.data.length ≤ i := by
      have : encodeURL.data.length = 64 := by decide
      omega
    simp only [encodeTable, List.getD_eq_default _ _ this]
    decide

theorem encodeList_length (src : List Byte) :
    (encodeList src).length = (4 * src.length + 2) / 3 := by
  induction src using encodeList.induct with
  | case1 a b c rest ih => simp only [encodeList, List.length_cons, ih]; omega
  | case2 a b => simp [encodeList]
  | case3 a => simp [encodeList]
  | case4 => rfl

theorem encodeList_safe (src : List Byte) : ∀ c ∈ encodeList src, c ∈ encodeURL.data := by
  induction src using encodeList.induct with
  | case1 a b c rest ih =>
    intro x hx
    simp only [encodeList, List.mem_cons] at hx
    rcases hx with h | h | h | h | h
    · exact h ▸ encodeTable_safe _
    · exact h ▸ encodeTable_safe _
    · exact h ▸ encodeTable_safe _
    · exact h ▸ encodeTable_safe _
    · exact ih x h
  | case2 a b =>
    intro x hx
    simp only [encodeList, List.mem_cons, List.not_mem_nil, or_false] at hx
    rcases hx with h | h | h
    · exact h ▸ encodeTable_safe _
    · exact h ▸ encodeTable_safe _
    · exact h ▸ encodeTable_safe _
  | case3 a =>
    intro x hx
    simp only [encodeList, List.mem_cons, List.not_mem_nil, or_false] at hx
    rcases hx with h | h
    · exact h ▸ encodeTable_safe _
    · exact h ▸ encodeTable_safe _
  | case4 => intro x hx; simp [encodeList] at hx

theorem encodeURL_not_newline : ∀ c ∈ encodeURL.data, (!isNewline c) = true := by decide

theorem DecodeString_EncodeToString (src : List Byte) :
    DecodeString (EncodeToString src) = some src := by
  have hf : (encodeList src).filter (fun c => !isNewline c) = encodeList src :=
    List.filter_eq_self.mpr fun c hc => encodeURL_not_newline c (encodeList_safe src c hc)
  simp only [DecodeString, EncodeToString, hf]
  exact decodeList_encodeList src

theorem encodeURL_safe : ∀ c ∈ encodeURL.data, isURLSafe c = true ∧ c ≠ '=' := by decide

theorem dnsParam_requestURL (dohAddr : String) (q : List Byte) :
    dnsParam dohAddr (requestURL dohAddr q) = EncodeToString q := by
  have h5 : ("?dns=" : String).data.length = 5 := by decide
  simp only [dnsParam, requestURL, String.data_append, List.append_assoc, String.length]
  rw [show dohAddr.data.length + 5 = dohAddr.data.length + ("?dns=" : String).data.length by
    rw [h5], ← List.length_append, ← List.append_assoc, List.drop_left]

/-! ## Lemmas on the pool and the loop -/

theorem poolNew_full (p : PoolState) : Full (poolNew p).1 :=
  ⟨_, rfl, List.length_replicate _ _⟩

theorem getBuffer_full (p : PoolState) (pick : Option Nat) (h : ∀ v ∈ p.items, Full v) :
    Full (getBuffer p pick).1 ∧ ∀ v ∈ (getBuffer p pick).2.items, Full v := by
  unfold getBuffer poolGet
  cases pick with
  | none => exact ⟨poolNew_full p, h⟩
  | some i =>
    dsimp only
    split
    · next v hi =>
      exact ⟨h v (List.get?_mem hi), fun w hw => h w (List.mem_of_mem_eraseIdx hw)⟩
    · exact ⟨poolNew_full p, h⟩

theorem ReadFromUDP_length (ev : SockEvent) (buffer : Buffer) :
    (ReadFromUDP ev buffer).buffer.bytes.length = buffer.bytes.length ∧
      (ReadFromUDP ev buffer).n ≤ buffer.bytes.length ∧
      (ReadFromUDP ev buffer).buffer.id = buffer.id := by
  cases ev with
  | datagram payload remote =>
    refine ⟨?_, ?_, rfl⟩
    · simp only [ReadFromUDP, List.length_append, List.length_take, List.length_drop]
      omega
    · exact Nat.min_le_right _ _
  | failure err => exact ⟨rfl, Nat.zero_le _, rfl⟩

theorem Body_Read_length (body : Body) (data : Buffer) :
    (body.Read data).data.bytes.length = data.bytes.length ∧
      (body.Read data).n ≤ data.bytes.length := by
  simp only [Body.Read, List.length_append, List.length_take, List.length_drop]
  omega

theorem sliceTo_of_le (data : Buffer) (n : Nat) (h : n ≤ data.bytes.length) :
    sliceTo data n = some (data.bytes.take n) := by
  simp [sliceTo, h]

theorem forwarderBody_panic (client : Client) (dohAddr : String) (t : Task)
    (h : ¬ t.length ≤ t.data.bytes.length) :
    forwarderBody client dohAddr t = ([.panic], t.data) := by
  simp [forwarderBody, sliceTo, h]

theorem forwarderBody_error (client : Client) (dohAddr : String) (t : Task) (err : String)
    (h : t.length ≤ t.data.bytes.length)
    (hc : client (requestURL dohAddr (t.data.bytes.take t.length)) = .error err) :
    forwarderBody client dohAddr t =
      ([.get (requestURL dohAddr (t.data.bytes.take t.length)), .warn err], t.data) := by
  simp [forwarderBody, sliceTo, h, hc]

theorem forwarderBody_status (client : Client) (dohAddr : String) (t : Task) (resp : Response)
    (h : t.length ≤ t.data.bytes.length)
    (hc : client (requestURL dohAddr (t.data.bytes.take t.length)) = .ok resp)
    (hs : resp.StatusCode ≠ 200) :
    forwarderBody client dohAddr t =
      ([.get (requestURL dohAddr (t.data.bytes.take t.length)),
        .warn ("http response code: " ++ toString resp.StatusCode)], t.data) := by
  simp [forwarderBody, sliceTo, h, hc, hs]

theorem forwarderBody_relay (client : Client) (dohAddr : String) (t : Task) (resp : Response)
    (h : t.length ≤ t.data.bytes.length)
    (hc : client (requestURL dohAddr (t.data.bytes.take t.length)) = .ok resp)
    (hs : resp.StatusCode = 200) (hn : 0 < (resp.Body.Read t.data).n) :
    forwarderBody client dohAddr t =
      ([.get (requestURL dohAddr (t.data.bytes.take t.length)), .bodyRead,
        .writeToUDP ((resp.Body.Read t.data).data.bytes.take (resp.Body.Read t.data).n) t.d,
        .bodyClose], (resp.Body.Read t.data).data) := by
  have hb := Body_Read_length resp.Body t.data
  have hle : (resp.Body.Read t.data).n ≤ (resp.Body.Read t.data).data.bytes.length := by
    rw [hb.1]; exact hb.2
  simp only [forwarderBody, sliceTo_of_le _ _ h, hc, hs, if_true, hn, sliceTo_of_le _ _ hle]

theorem forwarderBody_empty (client : Client) (dohAddr : String) (t : Task) (resp : Response)
    (h : t.length ≤ t.data.bytes.length)
    (hc : client (requestURL dohAddr (t.data.bytes.take t.length)) = .ok resp)
    (hs : resp.StatusCode = 200) (hn : (resp.Body.Read t.data).n = 0) :
    forwarderBody client dohAddr t =
      ([.get (requestURL dohAddr (t.data.bytes.take t.length)), .bodyRead] ++
        (if (resp.Body.Read t.data).err ≠ none
          then [.warn ((resp.Body.Read t.data).err.getD "")] else []) ++ [.bodyClose],
        (resp.Body.Read t.data).data) := by
  simp only [forwarderBody, sliceTo_of_le _ _ h, hc, hs, if_true, hn, Nat.lt_irrefl, if_false]
  split <;> rfl

theorem forwarderBody_length (client : Client) (dohAddr : String) (t : Task) :
    (forwarderBody client dohAddr t).2.bytes.length = t.data.bytes.length := by
  by_cases h : t.length ≤ t.data.bytes.length
  · cases hc : client (requestURL dohAddr (t.data.bytes.take t.length)) with
    | error err => rw [forwarderBody_error client dohAddr t err h hc]
    | ok resp =>
      by_cases hs : resp.StatusCode = 200
      · by_cases hn : 0 < (resp.Body.Read t.data).n
        · rw [forwarderBody_relay client dohAddr t resp h hc hs hn]
          exact (Body_Read_length _ _).1
        · rw [forwarderBody_empty client dohAddr t resp h hc hs (by omega)]
          exact (Body_Read_length _ _).1
      · rw [forwarderBody_status client dohAddr t resp h hc hs]
  · rw [forwarderBody_panic client dohAddr t h]

theorem loopBody_inv (p : PoolState) (pick : Option Nat) (ev : SockEvent)
    (h : ∀ v ∈ p.items, Full v) :
    (∀ v ∈ (loopBody p pick ev).pool.items, Full v) ∧
      ∀ t ∈ (loopBody p pick ev).spawned, t.data.bytes.length = 1024 := by
  obtain ⟨⟨b, hb, hlen⟩, hrest⟩ := getBuffer_full p pick h
  have hr := ReadFromUDP_length ev b
  have hfull : Full (some (ReadFromUDP ev b).buffer) := ⟨_, rfl, by rw [hr.1, hlen]⟩
  unfold loopBody
  rcases hg : getBuffer p pick with ⟨v, p1⟩
  rw [hg] at hb hrest
  dsimp only at hb hrest
  subst hb
  dsimp only
  have hput : ∀ v ∈ (putBuffer p1 (some (ReadFromUDP ev b).buffer)).items, Full v := by
    intro v hv
    simp only [putBuffer, List.mem_cons] at hv
    rcases hv with rfl | hv
    · exact hfull
    · exact hrest v hv
  split
  · split
    · refine ⟨hput, ?_⟩
      intro t ht
      simp only [Option.mem_def, Option.some.injEq] at ht
      subst ht
      rw [hr.1, hlen]
    · exact ⟨hput, by simp⟩
  · exact ⟨hrest, by simp⟩

theorem Buffer_overwrite_length (w b : Buffer) (hw : w.bytes.length = 1024)
    (hb : b.bytes.length = 1024) : (b.overwrite w).bytes.length = 1024 := by
  unfold Buffer.overwrite
  split
  · exact hw
  · exact hb

theorem PoolState_overwrite_full (w : Buffer) (p : PoolState) (hw : w.bytes.length = 1024)
    (h : ∀ v ∈ p.items, Full v) : ∀ v ∈ (p.overwrite w).items, Full v := by
  intro v hv
  simp only [PoolState.overwrite, List.mem_map] at hv
  obtain ⟨u, hu, rfl⟩ := hv
  obtain ⟨b, rfl, hb⟩ := h u hu
  exact ⟨_, rfl, Buffer_overwrite_length w b hw hb⟩

theorem tasks_overwrite_length (w : Buffer) (ts : List Task) (hw : w.bytes.length = 1024)
    (h : ∀ t ∈ ts, t.data.bytes.length = 1024) :
    ∀ t ∈ ts.map (fun t => t.overwrite w), t.data.bytes.length = 1024 := by
  intro t ht
  simp only [List.mem_map] at ht
  obtain ⟨u, hu, rfl⟩ := ht
  exact Buffer_overwrite_length w u.data hw (h u hu)

theorem step_inv (dohAddr : String) (s : State) (st : Step) (h : Inv s) :
    Inv (step dohAddr s st) := by
  cases st with
  | recv pick ev =>
    obtain ⟨h1, h2⟩ := loopBody_inv s.pool pick ev h.1
    have htasks : ∀ t ∈ s.tasks ++ (loopBody s.pool pick ev).spawned.toList,
        t.data.bytes.length = 1024 := by
      intro t ht
      simp only [List.mem_append, Option.mem_toList] at ht
      rcases ht with ht | ht
      · exact h.2 t ht
      · exact h2 t ht
    obtain ⟨b, hb, hlen⟩ := (getBuffer_full s.pool pick h.1).1
    have hw : (ReadFromUDP ev b).buffer.bytes.length = 1024 := by
      rw [(ReadFromUDP_length ev b).1, hlen]
    simp only [step, hb]
    exact ⟨PoolState_overwrite_full _ _ hw h1, tasks_overwrite_length _ _ hw htasks⟩
  | finish i client =>
    simp only [step]
    split
    · next t ht =>
      have hw : (forwarderBody client dohAddr t).2.bytes.length = 1024 := by
        rw [forwarderBody_length]; exact h.2 t (List.get?_mem ht)
      refine ⟨PoolState_overwrite_full _ _ hw ?_, tasks_overwrite_length _ _ hw
        fun u hu => h.2 u (List.mem_of_mem_eraseIdx hu)⟩
      intro v hv
      simp only [forwarder, putBuffer, List.mem_cons] at hv
      rcases hv with rfl | hv
      · exact ⟨_, rfl, hw⟩
      · exact h.1 v hv
    · exact h
  | evict i =>
    exact ⟨fun v hv => h.1 v (List.mem_of_mem_eraseIdx hv), h.2⟩

theorem foldl_inv (dohAddr : String) (steps : List Step) :
    ∀ s, Inv s → Inv (steps.foldl (step dohAddr) s) := by
  induction steps with
  | nil => exact fun s h => h
  | cons st rest ih => exact fun s h => ih _ (step_inv dohAddr s st h)

theorem run_inv (dohAddr : String) (steps : List Step) : Inv (run dohAddr steps) :=
  foldl_inv dohAddr steps _ ⟨by simp [pool], by simp⟩

theorem loopBody_of_buffer (p p1 : PoolState) (pick : Option Nat) (ev : SockEvent)
    (buffer : Buffer) (hb : getBuffer p pick = (some buffer, p1)) :
    loopBody p pick ev =
      match (ReadFromUDP ev buffer).err with
      | none =>
        if 0 < (ReadFromUDP ev buffer).n then
          ⟨putBuffer p1 (some (ReadFromUDP ev buffer).buffer),
            [.spawn (ReadFromUDP ev buffer).remote (ReadFromUDP ev buffer).buffer
              (ReadFromUDP ev buffer).n, .putBuffer (ReadFromUDP ev buffer).buffer.id],
            some ⟨(ReadFromUDP ev buffer).remote, (ReadFromUDP ev buffer).buffer,
              (ReadFromUDP ev buffer).n⟩, true⟩
        else
          ⟨putBuffer p1 (some (ReadFromUDP ev buffer).buffer),
            [.warn "short read", .putBuffer (ReadFromUDP ev buffer).buffer.id], none, true⟩
      | some err => ⟨p1, [.warn err], none, false⟩ := by
  simp only [loopBody, hb]

theorem loopBody_spawned (p : PoolState) (pick : Option Nat) (ev : SockEvent) (t : Task)
    (hs : (loopBody p pick ev).spawned = some t) :
    ∃ buffer p1 payload remote, getBuffer p pick = (some buffer, p1) ∧
      ev = .datagram payload remote ∧ t.d = some remote ∧
      t.data = (ReadFromUDP ev buffer).buffer ∧ t.length = (ReadFromUDP ev buffer).n ∧
      0 < t.length ∧ t.length ≤ t.data.bytes.length := by
  rcases hg : getBuffer p pick with ⟨v, p1⟩
  cases v with
  | none => simp [loopBody, hg] at hs
  | some buffer =>
    rw [loopBody_of_buffer p p1 pick ev buffer hg] at hs
    have hr := ReadFromUDP_length ev buffer
    cases ev with
    | failure err => simp [ReadFromUDP] at hs
    | datagram payload remote =>
      have herr : (ReadFromUDP (.datagram payload remote) buffer).err = none := rfl
      simp only [herr] at hs
      split at hs
      · next hn =>
        simp only [Option.some.injEq] at hs
        subst hs
        exact ⟨buffer, p1, payload, remote, rfl, rfl, rfl, rfl, rfl, hn, by rw [hr.1]; exact hr.2.1⟩
      · simp at hs

set_option maxRecDepth 100000 in
theorem loopBody_example :
    loopBody pool none (.datagram exampleQuery exampleAddr) =
      ⟨⟨[some ⟨0, exampleQuery ++ List.replicate 1012 0⟩], 1⟩,
        [.spawn (some exampleAddr) ⟨0, exampleQuery ++ List.replicate 1012 0⟩ 12, .putBuffer 0],
        some ⟨some exampleAddr, ⟨0, exampleQuery ++ List.replicate 1012 0⟩, 12⟩, true⟩ :=
  rfl

set_option maxRecDepth 100000 in
theorem getBuffer_example :
    (getBuffer pool none).1 = some ⟨0, List.replicate 1024 0⟩ :=
  rfl

theorem exampleQuery_fits :
    (12 : Nat) ≤ (exampleQuery ++ List.replicate 1012 (0 : Byte)).length ∧
      (exampleQuery ++ List.replicate 1012 (0 : Byte)).take 12 = exampleQuery :=
  ⟨by rw [List.length_append, List.length_replicate]; exact Nat.le_add_left _ _, rfl⟩

theorem putCount_loop (d : Option UDPAddr) (data : Buffer) (length : Nat) :
    putCount data.id [.spawn d data length, .putBuffer data.id] = 1 := by
  simp [putCount, List.count_cons]

theorem putCount_forwarder (client : Client) (dohAddr : String) (t : Task) (p : PoolState) :
    putCount t.data.id (forwarder client dohAddr t p).2 = 1 := by
  by_cases h : t.length ≤ t.data.bytes.length
  · cases hc : client (requestURL dohAddr (t.data.bytes.take t.length)) with
    | error err => simp [putCount, forwarder, forwarderBody_error client dohAddr t err h hc]
    | ok resp =>
      by_cases hst : resp.StatusCode = 200
      · by_cases hn : 0 < (resp.Body.Read t.data).n
        · simp [putCount, forwarder, forwarderBody_relay client dohAddr t resp h hc hst hn]
        · simp only [putCount, forwarder,
            forwarderBody_empty client dohAddr t resp h hc hst (by omega)]
          split <;> simp
      · simp [putCount, forwarder, forwarderBody_status client dohAddr t resp h hc hst]
  · simp [putCount, forwarder, forwarderBody_panic client dohAddr t h]

theorem putCount_failure (p : PoolState) (pick : Option Nat) (err : String) (id : Nat) :
    putCount id (loopBody p pick (.failure err)).trace = 0 := by
  unfold loopBody
  split
  · rfl
  · simp [putCount, ReadFromUDP]

theorem closeCount_status (client : Client) (dohAddr : String) (t : Task) (p : PoolState)
    (resp : Response) (h : t.length ≤ t.data.bytes.length)
    (hc : client (requestURL dohAddr (t.data.bytes.take t.length)) = .ok resp)
    (hst : resp.StatusCode ≠ 200) :
    Effect.get (requestURL dohAddr (t.data.bytes.take t.length)) ∈
        (forwarder client dohAddr t p).2 ∧
      closeCount (forwarder client dohAddr t p).2 = 0 := by
  simp [closeCount, forwarder, forwarderBody_status client dohAddr t resp h hc hst]

theorem closeCount_ok (client : Client) (dohAddr : String) (t : Task) (p : PoolState)
    (resp : Response) (h : t.length ≤ t.data.bytes.length)
    (hc : client (requestURL dohAddr (t.data.bytes.take t.length)) = .ok resp)
    (hst : resp.StatusCode = 200) :
    closeCount (forwarder client dohAddr t p).2 = 1 := by
  by_cases hn : 0 < (resp.Body.Read t.data).n
  · simp [closeCount, forwarder, forwarderBody_relay client dohAddr t resp h hc hst hn]
  · simp only [closeCount, forwarder,
      forwarderBody_empty client dohAddr t resp h hc hst (by omega)]
    split <;> simp

theorem ReadFromUDP_zero (ev : SockEvent) (buffer : Buffer)
    (h0 : (ReadFromUDP ev buffer).n = 0) : (ReadFromUDP ev buffer).buffer = buffer := by
  cases ev with
  | datagram payload remote =>
    simp only [ReadFromUDP] at h0 ⊢
    rw [h0, List.take_zero, List.drop_zero, List.nil_append]
  | failure err => rfl

/-! ## The claims -/

/-- C9: in an iteration of the receive loop that acquired the buffer `buffer`, a forwarder is
started if and only if the socket read returned no error and a length `n > 0`, and it then
carries the source address, the buffer and the length of that read; a read of length 0 without
error starts no forwarder, makes no upstream request, releases the buffer (the pool then holds
it in front of what it held, and a `getBuffer` can return it) and goes on; a read error starts
no forwarder and ends the loop. -/
theorem C9_spawn_iff_read (p p1 : PoolState) (pick : Option Nat) (ev : SockEvent)
    (buffer : Buffer) (hb : getBuffer p pick = (some buffer, p1)) :
    ((loopBody p pick ev).spawned ≠ none ↔
        (ReadFromUDP ev buffer).err = none ∧ 0 < (ReadFromUDP ev buffer).n) ∧
      ((ReadFromUDP ev buffer).err = none → 0 < (ReadFromUDP ev buffer).n →
        (loopBody p pick ev).spawned = some ⟨(ReadFromUDP ev buffer).remote,
          (ReadFromUDP ev buffer).buffer, (ReadFromUDP ev buffer).n⟩ ∧
        (ReadFromUDP ev buffer).buffer.id = buffer.id ∧ (loopBody p pick ev).again = true) ∧
      ((ReadFromUDP ev buffer).err = none → (ReadFromUDP ev buffer).n = 0 →
        (loopBody p pick ev).spawned = none ∧
        (loopBody p pick ev).trace = [.warn "short read", .putBuffer buffer.id] ∧
        (loopBody p pick ev).pool = putBuffer p1 (some (ReadFromUDP ev buffer).buffer) ∧
        (ReadFromUDP ev buffer).buffer = buffer ∧
        (loopBody p pick ev).pool.items = some buffer :: p1.items ∧
        (getBuffer (loopBody p pick ev).pool (some 0)).1 = some buffer ∧
        (loopBody p pick ev).again = true) ∧
      ((ReadFromUDP ev buffer).err ≠ none →
        (loopBody p pick ev).spawned = none ∧ (loopBody p pick ev).again = false ∧
        ∀ e ∈ (loopBody p pick ev).trace, ∃ msg, e = .warn msg) := by
  rw [loopBody_of_buffer p p1 pick ev buffer hb]
  have hid := (ReadFromUDP_length ev buffer).2.2
  cases herr : (ReadFromUDP ev buffer).err with
  | some err => simp
  | none =>
    by_cases hn : 0 < (ReadFromUDP ev buffer).n
    · simp [hn, hid]
      omega
    · have h0 : (ReadFromUDP ev buffer).n = 0 := by omega
      have hsame : (ReadFromUDP ev buffer).buffer = buffer := ReadFromUDP_zero ev buffer h0
      simp [h0, hid, hsame, putBuffer, getBuffer, poolGet]

/-- C3: for every forwarder the receive loop starts, a UDP response is written if and only if
the fetch returned a response (no transport error), its status is 200 and the one `Read` of the
body returned `n > 0`; the forwarder then writes exactly one datagram, made of the first `n`
bytes `Read` left in the buffer and addressed to the source address of the query. On a
transport error, on a status other than 200 and on a read of 0 bytes nothing is written. -/
theorem C3_write_iff_relayed (client : Client) (dohAddr : String) (p0 p : PoolState)
    (pick : Option Nat) (ev : SockEvent) (t : Task)
    (hs : (loopBody p0 pick ev).spawned = some t) :
    (∃ payload remote, ev = .datagram payload remote ∧ t.d = some remote) ∧
      (writes (forwarder client dohAddr t p).2 ≠ [] ↔
        ∃ resp, client (requestURL dohAddr (t.data.bytes.take t.length)) = .ok resp ∧
          resp.StatusCode = 200 ∧ 0 < (resp.Body.Read t.data).n) ∧
      (∀ resp, client (requestURL dohAddr (t.data.bytes.take t.length)) = .ok resp →
        resp.StatusCode = 200 → 0 < (resp.Body.Read t.data).n →
        writes (forwarder client dohAddr t p).2 =
          [((resp.Body.Read t.data).data.bytes.take (resp.Body.Read t.data).n, t.d)]) ∧
      (∀ err, client (requestURL dohAddr (t.data.bytes.take t.length)) = .error err →
        writes (forwarder client dohAddr t p).2 = []) ∧
      (∀ resp, client (requestURL dohAddr (t.data.bytes.take t.length)) = .ok resp →
        resp.StatusCode ≠ 200 → writes (forwarder client dohAddr t p).2 = []) ∧
      (∀ resp, client (requestURL dohAddr (t.data.bytes.take t.length)) = .ok resp →
        resp.StatusCode = 200 → (resp.Body.Read t.data).n = 0 →
        writes (forwarder client dohAddr t p).2 = []) := by
  obtain ⟨buffer, p1, payload, remote, -, hev, hd, -, -, -, h⟩ := loopBody_spawned p0 pick ev t hs
  refine ⟨⟨payload, remote, hev, hd⟩, ?_⟩
  have herror : ∀ err, client (requestURL dohAddr (t.data.bytes.take t.length)) = .error err →
      writes (forwarder client dohAddr t p).2 = [] := by
    intro err hc
    simp [forwarder, forwarderBody_error client dohAddr t err h hc, writes]
  have hstatus : ∀ resp, client (requestURL dohAddr (t.data.bytes.take t.length)) = .ok resp →
      resp.StatusCode ≠ 200 → writes (forwarder client dohAddr t p).2 = [] := by
    intro resp hc hst
    simp [forwarder, forwarderBody_status client dohAddr t resp h hc hst, writes]
  have hempty : ∀ resp, client (requestURL dohAddr (t.data.bytes.take t.length)) = .ok resp →
      resp.StatusCode = 200 → (resp.Body.Read t.data).n = 0 →
      writes (forwarder client dohAddr t p).2 = [] := by
    intro resp hc hst hn
    simp only [forwarder, forwarderBody_empty client dohAddr t resp h hc hst hn]
    split <;> simp [writes]
  have hrelay : ∀ resp, client (requestURL dohAddr (t.data.bytes.take t.length)) = .ok resp →
      resp.StatusCode = 200 → 0 < (resp.Body.Read t.data).n →
      writes (forwarder client dohAddr t p).2 =
        [((resp.Body.Read t.data).data.bytes.take (resp.Body.Read t.data).n, t.d)] := by
    intro resp hc hst hn
    simp [forwarder, forwarderBody_relay client dohAddr t resp h hc hst hn, writes]
  refine ⟨?_, hrelay, herror, hstatus, hempty⟩
  constructor
  · intro hw
    cases hc : client (requestURL dohAddr (t.data.bytes.take t.length)) with
    | error err => exact absurd (herror err hc) hw
    | ok resp =>
      by_cases hst : resp.StatusCode = 200
      · by_cases hn : 0 < (resp.Body.Read t.data).n
        · exact ⟨resp, rfl, hst, hn⟩
        · exact absurd (hempty resp hc hst (by omega)) hw
      · exact absurd (hstatus resp hc hst) hw
  · rintro ⟨resp, hc, hst, hn⟩
    rw [hrelay resp hc hst hn]
    exact List.cons_ne_nil _ _

/-- C2: for every DoH base string, every buffer and every read length
`1 <= length <= len(buffer)`, the URL the forwarder requests is
`dohAddr ++ "?dns=" ++ EncodeToString(buffer[:length])`; it is the same for any other buffer
with the same first `length` bytes; the encoded part has only characters of the URL-safe
alphabet, no `=`, and `ceil(4*length/3)` characters. -/
theorem C2_request_url (client : Client) (dohAddr : String) (t : Task) (p : PoolState)
    (h2 : t.length ≤ t.data.bytes.length) :
    (forwarder client dohAddr t p).2.head? =
        some (.get (dohAddr ++ "?dns=" ++ EncodeToString (t.data.bytes.take t.length))) ∧
      (∀ (client2 : Client) (p2 : PoolState) (d2 : Option UDPAddr) (data2 : Buffer),
        t.length ≤ data2.bytes.length →
        data2.bytes.take t.length = t.data.bytes.take t.length →
        ∃ url, (forwarder client dohAddr t p).2.head? = some (.get url) ∧
          (forwarder client2 dohAddr ⟨d2, data2, t.length⟩ p2).2.head? = some (.get url)) ∧
      (∀ c ∈ (EncodeToString (t.data.bytes.take t.length)).data,
        isURLSafe c = true ∧ c ≠ '=') ∧
      (EncodeToString (t.data.bytes.take t.length)).length = (4 * t.length + 2) / 3 ∧
      4 * t.length ≤ 3 * (EncodeToString (t.data.bytes.take t.length)).length ∧
      3 * (EncodeToString (t.data.bytes.take t.length)).length < 4 * t.length + 3 := by
  have hhead : ∀ (c : Client) (u : Task) (q : PoolState), u.length ≤ u.data.bytes.length →
      (forwarder c dohAddr u q).2.head? =
        some (.get (requestURL dohAddr (u.data.bytes.take u.length))) := by
    intro c u q h
    cases hc : c (requestURL dohAddr (u.data.bytes.take u.length)) with
    | error err => simp [forwarder, forwarderBody_error c dohAddr u err h hc]
    | ok resp =>
      by_cases hst : resp.StatusCode = 200
      · by_cases hn : 0 < (resp.Body.Read u.data).n
        · simp [forwarder, forwarderBody_relay c dohAddr u resp h hc hst hn]
        · simp [forwarder, forwarderBody_empty c dohAddr u resp h hc hst (by omega)]
      · simp [forwarder, forwarderBody_status c dohAddr u resp h hc hst]
  have hlen : (EncodeToString (t.data.bytes.take t.length)).length = (4 * t.length + 2) / 3 := by
    simp only [EncodeToString, String.length, encodeList_length, List.length_take]
    rw [Nat.min_eq_left h2]
  refine ⟨hhead client t p h2, ?_, ?_, hlen, ?_, ?_⟩
  · intro client2 p2 d2 data2 hle heq
    refine ⟨_, hhead client t p h2, ?_⟩
    rw [hhead client2 ⟨d2, data2, t.length⟩ p2 hle]
    simp only [heq]
  · intro c hc
    exact encodeURL_safe c (encodeList_safe _ c hc)
  · rw [hlen]; omega
  · rw [hlen]; omega

theorem take_overwrite (xs ys : List Byte) (n : Nat) (h : n ≤ xs.length) :
    (xs.take n ++ ys.drop n).take n = xs.take n := by
  have hl : (xs.take n).length = n := by rw [List.length_take]; omega
  conv_lhs => rw [← hl]
  rw [hl, List.take_append_of_le_length (by omega), List.take_take, Nat.min_self]

/-- A forwarder that runs on the bytes the loop read, the array untouched in between, relays the
echo of the payload. -/
theorem round_trip_undisturbed (dohAddr : String) (steps : List Step) (pick : Option Nat)
    (payload : List Byte) (remote : UDPAddr) (client : Client) (resp : Response) (p : PoolState)
    (h1 : 1 ≤ payload.length) (h2 : payload.length ≤ 1024)
    (hget : client (requestURL dohAddr payload) = .ok resp)
    (h200 : resp.StatusCode = 200)
    (hbody : DecodeString (dnsParam dohAddr (requestURL dohAddr payload)) = some resp.Body.content)
    (hread : resp.Body.content.length ≤ resp.Body.chunk) :
    ∃ t, (loopBody (run dohAddr steps).pool pick (.datagram payload remote)).spawned = some t ∧
      (forwarder client dohAddr t p).2.head? = some (.get (requestURL dohAddr payload)) ∧
      writes (forwarder client dohAddr t p).2 = [(payload, some remote)] := by
  obtain ⟨⟨b, hb, hlen⟩, -⟩ := getBuffer_full _ pick (run_inv dohAddr steps).1
  rcases hg : getBuffer (run dohAddr steps).pool pick with ⟨v, p1⟩
  rw [hg] at hb
  dsimp only at hb
  subst hb
  rw [dnsParam_requestURL, DecodeString_EncodeToString, Option.some.injEq] at hbody
  have hn : min payload.length b.bytes.length = payload.length := by omega
  have hspawn : (loopBody (run dohAddr steps).pool pick (.datagram payload remote)).spawned =
      some ⟨some remote, ⟨b.id, payload ++ b.bytes.drop payload.length⟩, payload.length⟩ := by
    rw [loopBody_of_buffer _ p1 pick _ b hg]
    simp only [ReadFromUDP, hn, List.take_length]
    rw [if_pos (by omega)]
  refine ⟨_, hspawn, ?_⟩
  have hle : payload.length ≤ (payload ++ b.bytes.drop payload.length).length := by
    simp only [List.length_append]; omega
  have htake : (payload ++ b.bytes.drop payload.length).take payload.length = payload :=
    List.take_left _ _
  have hc : client (requestURL dohAddr
      ((payload ++ b.bytes.drop payload.length).take payload.length)) = .ok resp := by
    rw [htake]; exact hget
  have hrn : (resp.Body.Read ⟨b.id, payload ++ b.bytes.drop payload.length⟩).n =
      payload.length := by
    rw [← hbody] at hread
    simp only [Body.Read, List.length_append, List.length_drop, ← hbody]
    omega
  have hrel := forwarderBody_relay client dohAddr
    ⟨some remote, ⟨b.id, payload ++ b.bytes.drop payload.length⟩, payload.length⟩ resp hle hc h200
    (by rw [hrn]; omega)
  dsimp only at hrel
  rw [hrn, htake] at hrel
  have hdata : (resp.Body.Read ⟨b.id, payload ++ b.bytes.drop payload.length⟩).data.bytes.take
      payload.length = payload := by
    have := hrn
    simp only [Body.Read] at this ⊢
    rw [this, ← hbody, List.take_length, List.take_left]
  rw [hdata] at hrel
  simp [forwarder, hrel, writes]

/-- C10: in every reachable state `getBuffer` returns a non-nil buffer of exactly 1024 bytes;
hence for every forwarder started there, `buffer[:length]` is within bounds, and for every
upstream body of any size answered with status 200 the forwarder calls `Read` exactly once,
does not panic (`buffer[:n]` is within bounds), and what it writes is the first `n` bytes of
the body for the `n` of that one read, `0 < n <= 1024` (nothing when `n = 0`). -/
theorem C10_bounded_single_read (dohAddr : String) (steps : List Step) (pick : Option Nat) :
    (∃ b, (getBuffer (run dohAddr steps).pool pick).1 = some b ∧ b.bytes.length = 1024) ∧
      ∀ (ev : SockEvent) (t : Task),
        (loopBody (run dohAddr steps).pool pick ev).spawned = some t →
        t.data.bytes.length = 1024 ∧ t.length ≤ t.data.bytes.length ∧
        ∀ (client : Client) (resp : Response) (p : PoolState),
          client (requestURL dohAddr (t.data.bytes.take t.length)) = .ok resp →
          resp.StatusCode = 200 →
          readCount (forwarder client dohAddr t p).2 = 1 ∧
          Effect.panic ∉ (forwarder client dohAddr t p).2 ∧
          (resp.Body.Read t.data).n ≤ (resp.Body.Read t.data).data.bytes.length ∧
          (resp.Body.Read t.data).n ≤ 1024 ∧
          (resp.Body.Read t.data).n ≤ resp.Body.content.length ∧
          ((resp.Body.Read t.data).n = 0 → writes (forwarder client dohAddr t p).2 = []) ∧
          (0 < (resp.Body.Read t.data).n → writes (forwarder client dohAddr t p).2 =
            [(resp.Body.content.take (resp.Body.Read t.data).n, t.d)]) := by
  have hinv := run_inv dohAddr steps
  refine ⟨(getBuffer_full _ pick hinv.1).1, ?_⟩
  intro ev t hs
  have hlen := (loopBody_inv _ pick ev hinv.1).2 t hs
  obtain ⟨-, -, -, -, -, -, -, -, -, -, h⟩ := loopBody_spawned _ pick ev t hs
  refine ⟨hlen, h, ?_⟩
  intro client resp p hc hst
  have hb := Body_Read_length resp.Body t.data
  have hcontent : (resp.Body.Read t.data).n ≤ resp.Body.content.length := by
    simp only [Body.Read]; omega
  have htake : (resp.Body.Read t.data).data.bytes.take (resp.Body.Read t.data).n =
      resp.Body.content.take (resp.Body.Read t.data).n := by
    have hc2 := hcontent
    simp only [Body.Read] at hc2 ⊢
    exact take_overwrite _ _ _ hc2
  refine ⟨?_, ?_, by rw [hb.1]; exact hb.2, by rw [← hlen]; exact hb.2, hcontent, ?_, ?_⟩
  · by_cases hn : 0 < (resp.Body.Read t.data).n
    · simp [readCount, forwarder, forwarderBody_relay client dohAddr t resp h hc hst hn]
    · simp only [readCount, forwarder,
        forwarderBody_empty client dohAddr t resp h hc hst (by omega)]
      split <;> simp
  · by_cases hn : 0 < (resp.Body.Read t.data).n
    · simp [forwarder, forwarderBody_relay client dohAddr t resp h hc hst hn]
    · simp only [forwarder, forwarderBody_empty client dohAddr t resp h hc hst (by omega)]
      split <;> simp
  · intro hn
    simp only [forwarder, forwarderBody_empty client dohAddr t resp h hc hst hn]
    split <;> simp [writes]
  · intro hn
    simp [forwarder, forwarderBody_relay client dohAddr t resp h hc hst hn, writes, htake]

/-- C5: whatever the flag `noVerify`, if the CA path is not empty, the file exists with a size
above 0, its bytes are read and `AppendCertsFromPEM` returns true, then `RootCAs` is the pool
parsed from the file and `InsecureSkipVerify` is false. -/
theorem C5_bundle_override {CertPool : Type} (fs : FileSystem) (x509 : X509 CertPool)
    (noVerify : Bool) (rootCA : String) (info : FileInfo) (data : List Byte)
    (hpath : rootCA ≠ "") (hstat : fs.Stat rootCA = .ok info) (hsize : 0 < info.Size)
    (hread : fs.ReadFile rootCA = .ok data)
    (hparse : (x509.AppendCertsFromPEM x509.NewCertPool data).2 = true) :
    (tlsConfig fs x509 noVerify rootCA).RootCAs =
        some (x509.AppendCertsFromPEM x509.NewCertPool data).1 ∧
      (tlsConfig fs x509 noVerify rootCA).InsecureSkipVerify = false := by
  simp [tlsConfig, hpath, hstat, hsize, hread, hparse]

/-- C6: whatever the flag `noVerify`, if the CA path is empty, or `os.Stat` fails (the file does
not exist), or the size is 0, or the file cannot be read, or no certificate parses from its
bytes, then `RootCAs` is unset (the system roots) and `InsecureSkipVerify` is `noVerify`. -/
theorem C6_bundle_fallback {CertPool : Type} (fs : FileSystem) (x509 : X509 CertPool)
    (noVerify : Bool) (rootCA : String)
    (h : rootCA = "" ∨ (∃ err, fs.Stat rootCA = .error err) ∨
      (∃ info, fs.Stat rootCA = .ok info ∧ info.Size = 0) ∨
      (∃ err, fs.ReadFile rootCA = .error err) ∨
      (∃ data, fs.ReadFile rootCA = .ok data ∧
        (x509.AppendCertsFromPEM x509.NewCertPool data).2 = false)) :
    (tlsConfig fs x509 noVerify rootCA).RootCAs = none ∧
      (tlsConfig fs x509 noVerify rootCA).InsecureSkipVerify = noVerify := by
  unfold tlsConfig
  rcases h with h | ⟨err, h⟩ | ⟨info, h, h0⟩ | ⟨err, h⟩ | ⟨data, h, hp⟩
  · simp [h]
  · simp [h]
  · simp [h, h0]
  · simp only [h]
    split
    · split
      · split <;> simp
      · simp
    · simp
  · simp only [h, hp]
    split
    · split
      · split <;> simp
      · simp
    · simp

theorem wrapInt64_of_range (x : Int) (h1 : -9223372036854775808 ≤ x)
    (h2 : x < 9223372036854775808) : wrapInt64 x = x := by
  unfold wrapInt64
  have e63 : (2 : Int) ^ 63 = 9223372036854775808 := by norm_num
  have e64 : (2 : Int) ^ 64 = 18446744073709551616 := by norm_num
  rw [e63, e64, Int.emod_eq_of_lt (by omega) (by omega)]
  omega

/-- C7, amended: a configured timeout `t < 1` gives 3 seconds, and `1 <= t <= 9223372036` (the
largest `t` with `t * 10^9 < 2^63`) gives exactly `t` seconds; in both cases the client timeout
is at least 1 second. -/
theorem C7_timeout_in_range (t : Int) (h : t ≤ 9223372036) :
    clientTimeout t = (if t < 1 then 3 else t) * Second ∧ Second ≤ clientTimeout t := by
  unfold clientTimeout coerceTimeout
  by_cases h1 : t < 1
  · simp only [gt_iff_lt, h1, if_true]
    rw [wrapInt64_of_range _ (by unfold Second; omega) (by unfold Second; omega)]
    unfold Second
    omega
  · simp only [gt_iff_lt, h1, if_false]
    rw [wrapInt64_of_range _ (by unfold Second; omega) (by unfold Second; omega)]
    unfold Second
    omega

set_option maxRecDepth 100000 in
theorem C9_spawn_iff_read_witness :
    getBuffer pool none = (some ⟨0, List.replicate 1024 0⟩, ⟨[], 1⟩) ∧
      (loopBody pool none (.datagram exampleQuery exampleAddr)).spawned =
        some ⟨some exampleAddr,
          ⟨0, exampleQuery ++ List.replicate 1012 0⟩, 12⟩ ∧
      ((loopBody pool none (.datagram [] exampleAddr)).spawned = none ∧
        (loopBody pool none (.datagram [] exampleAddr)).trace =
          [.warn "short read", .putBuffer 0] ∧
        (loopBody pool none (.datagram [] exampleAddr)).pool.items =
          [some ⟨0, List.replicate 1024 0⟩] ∧
        (getBuffer (loopBody pool none (.datagram [] exampleAddr)).pool (some 0)).1 =
          some ⟨0, List.replicate 1024 0⟩ ∧
        (loopBody pool none (.datagram [] exampleAddr)).again = true) ∧
      ((loopBody pool none (.failure "use of closed network connection")).spawned = none ∧
        (loopBody pool none (.failure "use of closed network connection")).again = false) :=
  have hzero := (C9_spawn_iff_read pool ⟨[], 1⟩ none (.datagram [] exampleAddr)
    ⟨0, List.replicate 1024 0⟩ rfl).2.2.1 rfl rfl
  have hfail := (C9_spawn_iff_read pool ⟨[], 1⟩ none
    (.failure "use of closed network connection") ⟨0, List.replicate 1024 0⟩ rfl).2.2.2
    (by decide)
  ⟨rfl, ((C9_spawn_iff_read pool ⟨[], 1⟩ none (.datagram exampleQuery exampleAddr)
    ⟨0, List.replicate 1024 0⟩ rfl).2.1 rfl (by decide)).1,
    ⟨hzero.1, hzero.2.1, hzero.2.2.2.2.1, hzero.2.2.2.2.2.1, hzero.2.2.2.2.2.2⟩,
    ⟨hfail.1, hfail.2.1⟩⟩

set_option maxRecDepth 100000 in
theorem C3_write_iff_relayed_witness :
    (loopBody pool none (.datagram exampleQuery exampleAddr)).spawned =
        some ⟨some exampleAddr, ⟨0, exampleQuery ++ List.replicate 1012 0⟩, 12⟩ ∧
      writes (forwarder (answering ⟨200, ⟨[7, 8, 9], 2, none⟩⟩) exampleDoh
        ⟨some exampleAddr, ⟨0, exampleQuery ++ List.replicate 1012 0⟩, 12⟩ pool).2 =
        [([7, 8], some exampleAddr)] :=
  ⟨rfl, (C3_write_iff_relayed (answering ⟨200, ⟨[7, 8, 9], 2, none⟩⟩) exampleDoh pool pool none
    (.datagram exampleQuery exampleAddr)
    ⟨some exampleAddr, ⟨0, exampleQuery ++ List.replicate 1012 0⟩, 12⟩ rfl).2.2.1
    ⟨200, ⟨[7, 8, 9], 2, none⟩⟩ rfl rfl (by decide)⟩

theorem C2_request_url_witness :
    (12 : Nat) ≤ exampleQuery.length ∧
      (forwarder (answering ⟨200, ⟨[], 0, none⟩⟩) exampleDoh
        ⟨some exampleAddr, ⟨0, exampleQuery⟩, 12⟩ pool).2.head? =
        some (.get "https://dns.google/dns-query?dns=EjQBAAABAAAAAAAA") :=
  ⟨by decide, (C2_request_url (answering ⟨200, ⟨[], 0, none⟩⟩) exampleDoh
    ⟨some exampleAddr, ⟨0, exampleQuery⟩, 12⟩ pool (by decide)).1⟩

set_option maxRecDepth 100000 in
theorem C10_bounded_single_read_witness :
    (loopBody (run exampleDoh []).pool none (.datagram exampleQuery exampleAddr)).spawned =
        some ⟨some exampleAddr, ⟨0, exampleQuery ++ List.replicate 1012 0⟩, 12⟩ ∧
      readCount (forwarder (answering ⟨200, ⟨List.replicate 1100 9, 1100, none⟩⟩) exampleDoh
        ⟨some exampleAddr, ⟨0, exampleQuery ++ List.replicate 1012 0⟩, 12⟩ pool).2 = 1 ∧
      writes (forwarder (answering ⟨200, ⟨List.replicate 1100 9, 1100, none⟩⟩) exampleDoh
        ⟨some exampleAddr, ⟨0, exampleQuery ++ List.replicate 1012 0⟩, 12⟩ pool).2 =
        [((List.replicate 1100 9).take 1024, some exampleAddr)] :=
  have h := ((C10_bounded_single_read exampleDoh [] none).2
    (.datagram exampleQuery exampleAddr)
    ⟨some exampleAddr, ⟨0, exampleQuery ++ List.replicate 1012 0⟩, 12⟩ rfl).2.2
    (answering ⟨200, ⟨List.replicate 1100 9, 1100, none⟩⟩)
    ⟨200, ⟨List.replicate 1100 9, 1100, none⟩⟩ pool rfl rfl
  ⟨rfl, h.1, h.2.2.2.2.2.2 (by decide)⟩

theorem C5_bundle_override_witness :
    (tlsConfig (exampleFS 3 [1, 2, 3]) exampleX509 true "rootCA.bin").RootCAs =
        some [[1, 2, 3]] ∧
      (tlsConfig (exampleFS 3 [1, 2, 3]) exampleX509 true "rootCA.bin").InsecureSkipVerify =
        false :=
  C5_bundle_override (exampleFS 3 [1, 2, 3]) exampleX509 true "rootCA.bin" ⟨3⟩ [1, 2, 3]
    (by decide) rfl (by decide) rfl rfl

theorem C6_bundle_fallback_witness :
    (tlsConfig (exampleFS 0 []) exampleX509 false "rootCA.bin").RootCAs = none ∧
      (tlsConfig (exampleFS 0 []) exampleX509 false "rootCA.bin").InsecureSkipVerify = false :=
  C6_bundle_fallback (exampleFS 0 []) exampleX509 false "rootCA.bin"
    (Or.inr (Or.inr (Or.inl ⟨⟨0⟩, rfl, rfl⟩)))

theorem C7_timeout_in_range_witness :
    (9223372036 : Int) ≤ 9223372036 ∧
      clientTimeout 9223372036 = (if (9223372036 : Int) < 1 then 3 else 9223372036) * Second ∧
      Second ≤ clientTimeout 9223372036 :=
  ⟨by decide, C7_timeout_in_range 9223372036 (by decide)⟩

/-- C7 as stated fails: the flag value 9223372037 is an `int` of 64 bits and is at least 1, but
the client timeout is not 9223372037 seconds and is below 1 second (it is negative). -/
theorem C7_counterexample :
    (1 : Int) ≤ 9223372037 ∧ (9223372037 : Int) < 2 ^ 63 ∧
      clientTimeout 9223372037 ≠ 9223372037 * Second ∧
      clientTimeout 9223372037 < Second ∧
      clientTimeout 9223372037 = -9223372036709551616 := by
  decide

/-- C4 fails on the code: for a query of 12 bytes, whatever the upstream answers, `putBuffer` is
called twice on the buffer of the iteration, once by the loop right after it started the
forwarder and once by the forwarder; and after a socket error it is not called at all. -/
theorem C4_released_twice (client : Client) (dohAddr : String) (p : PoolState) :
    (∃ t, (loopBody pool none (.datagram exampleQuery exampleAddr)).spawned = some t ∧
      t.data.id = 0 ∧
      (loopBody pool none (.datagram exampleQuery exampleAddr)).trace =
        [.spawn t.d t.data t.length, .putBuffer 0] ∧
      putCount 0 (forwarder client dohAddr t p).2 = 1 ∧
      putCount 0 ((loopBody pool none (.datagram exampleQuery exampleAddr)).trace ++
        (forwarder client dohAddr t p).2) = 2) ∧
      (getBuffer pool none).1 = some ⟨0, List.replicate 1024 0⟩ ∧
      putCount 0 (loopBody pool none (.failure "use of closed network connection")).trace =
        0 := by
  have h1 := putCount_forwarder client dohAddr
    ⟨some exampleAddr, ⟨0, exampleQuery ++ List.replicate 1012 0⟩, 12⟩ p
  have h2 := putCount_loop (some exampleAddr) ⟨0, exampleQuery ++ List.replicate 1012 0⟩ 12
  refine ⟨⟨⟨some exampleAddr, ⟨0, exampleQuery ++ List.replicate 1012 0⟩, 12⟩, ?_, rfl, ?_,
    h1, ?_⟩, getBuffer_example, putCount_failure _ _ _ _⟩
  · rw [loopBody_example]
  · rw [loopBody_example]
  · rw [loopBody_example]
    unfold putCount at h1 h2 ⊢
    rw [List.count_append, h1, h2]

/-- C8 fails on the code: when the upstream answers the example query with status 500, the
forwarder makes the request and ends without calling `resp.Body.Close`; with status 200 it
calls it once. -/
theorem C8_body_left_open (dohAddr : String) (p : PoolState) (body : Body) :
    ∃ t, (loopBody pool none (.datagram exampleQuery exampleAddr)).spawned = some t ∧
      Effect.get (requestURL dohAddr exampleQuery) ∈
        (forwarder (answering ⟨500, body⟩) dohAddr t p).2 ∧
      closeCount (forwarder (answering ⟨500, body⟩) dohAddr t p).2 = 0 ∧
      closeCount (forwarder (answering ⟨200, body⟩) dohAddr t p).2 = 1 := by
  rw [loopBody_example]
  refine ⟨⟨some exampleAddr, ⟨0, exampleQuery ++ List.replicate 1012 0⟩, 12⟩, rfl, ?_⟩
  have h500 := closeCount_status (answering ⟨500, body⟩) dohAddr
    ⟨some exampleAddr, ⟨0, exampleQuery ++ List.replicate 1012 0⟩, 12⟩ p ⟨500, body⟩
    exampleQuery_fits.1 rfl (by show (500 : Int) ≠ 200; decide)
  have h200 := closeCount_ok (answering ⟨200, body⟩) dohAddr
    ⟨some exampleAddr, ⟨0, exampleQuery ++ List.replicate 1012 0⟩, 12⟩ p ⟨200, body⟩
    exampleQuery_fits.1 rfl rfl
  dsimp only at h500
  rw [exampleQuery_fits.2] at h500
  exact ⟨h500.1, h500.2, h200⟩

set_option maxRecDepth 100000 in
theorem overtaken_trace :
    writes (run exampleDoh overtaken).trace = [(List.replicate 8 0xbb, some exampleAddr)] ∧
      Effect.get (requestURL exampleDoh (List.replicate 8 0xbb)) ∈
        (run exampleDoh overtaken).trace := by
  decide

set_option maxRecDepth 100000 in
theorem undisturbed_trace :
    writes (run exampleDoh undisturbed).trace = [(queryA, some exampleAddr)] := by
  decide

theorem echoUpstream_answer :
    echoUpstream exampleDoh (requestURL exampleDoh (List.replicate 8 0xbb)) =
        .ok ⟨200, ⟨List.replicate 8 0xbb, 8, none⟩⟩ ∧
      DecodeString (dnsParam exampleDoh (requestURL exampleDoh (List.replicate 8 0xbb))) =
        some (List.replicate 8 0xbb) := by
  have h := DecodeString_EncodeToString (List.replicate 8 0xbb)
  rw [← dnsParam_requestURL exampleDoh] at h
  refine ⟨?_, h⟩
  simp only [echoUpstream, h]
  rfl

/-- C1 fails on the code: `queryA` (8 bytes) arrives from `exampleAddr`, and `queryB` arrives
before the goroutine of `queryA` runs, read into the same array, which line 188 had released.
The goroutine requests the URL of the first 8 bytes of `queryB`; the upstream answers that GET
with status 200 and the decoding of its `dns` parameter, delivered whole by the one `Read`; the
one datagram written to `exampleAddr` carries bytes of `queryB`, not `queryA`. When the second
iteration gets another array, `exampleAddr` receives `queryA`. -/
theorem C1_relays_next_query :
    (1 ≤ queryA.length ∧ queryA.length ≤ 1024) ∧
      Effect.get (requestURL exampleDoh (List.replicate 8 0xbb)) ∈
        (run exampleDoh overtaken).trace ∧
      (echoUpstream exampleDoh (requestURL exampleDoh (List.replicate 8 0xbb)) =
          .ok ⟨200, ⟨List.replicate 8 0xbb, 8, none⟩⟩ ∧
        DecodeString (dnsParam exampleDoh (requestURL exampleDoh (List.replicate 8 0xbb))) =
          some (List.replicate 8 0xbb)) ∧
      writes (run exampleDoh overtaken).trace = [(List.replicate 8 0xbb, some exampleAddr)] ∧
      List.replicate 8 0xbb ≠ queryA ∧
      writes (run exampleDoh undisturbed).trace = [(queryA, some exampleAddr)] :=
  ⟨⟨by decide, by decide⟩, overtaken_trace.2, echoUpstream_answer, overtaken_trace.1, by decide,
    undisturbed_trace⟩

end DnsQuery
